import Mathlib

/-!
Verification of the hybrid question-answering pipeline of `src/llm_chat.py`
(the live code at the top of the file; the commented-out older variant at the
bottom of the source file is dead text and is not modelled).

Modelling conventions:
* Python strings are Lean `String`s; the regex character classes `\d` and `\w`
  are modelled on their ASCII fragment (`Char.isDigit`, alphanumeric or `_`).
* The DuckDB tables `floats` and `cycles` are lists of rows; SQL queries are
  translated to list functions next to each definition.
* A call into an external service (DuckDB execute, vector retriever, memory
  store, Gemini generation) can raise; this is modelled by an optional
  injected error per call site (`Option String`, the string standing for the
  Python exception text).  `none` means the call succeeds and its result is
  computed from the modelled state (for the database) or supplied as a
  parameter (for the opaque vector stores and the model).
-/

/-- Result of `extract_entities`: the Python dict with up to three optional
keys `float_id`, `region`, `parameter` (src/llm_chat.py:74-94). -/
structure Entities where
  float_id : Option String
  region : Option String
  parameter : Option String
  deriving Repr, DecidableEq

/-- The regex word-character class `\w` (ASCII fragment): letters, digits, `_`. -/
def isWordChar (c : Char) : Bool := c.isAlphanum || c == '_'

/-- Does the regex `\b(\d{7})\b` match `cs` at position `i`?  Seven digits at
`i`, a word boundary before (start of string or non-word char) and after
(end of string or non-word char).  Models the anchored attempt of
`re.search(r"\b(\d{7})\b", text)` at one position. -/
def boundedSevenAt (cs : List Char) (i : Nat) : Bool :=
  let seg := (cs.drop i).take 7
  (seg.length == 7) && seg.all (fun c => c.isDigit)
    && ((i == 0) || !(isWordChar (cs.getD (i - 1) ' ')))
    && (decide (cs.length ≤ i + 7) || !(isWordChar (cs.getD (i + 7) ' ')))

/-- Left-to-right scan of `re.search`: try each start position in order,
return the first that matches.  `fuel` bounds the scan (instantiated with
`cs.length`, which covers every feasible start position). -/
def scanFloat (cs : List Char) : Nat → Nat → Option Nat
  | _, 0 => none
  | i, fuel + 1 => if boundedSevenAt cs i then some i else scanFloat cs (i + 1) fuel

/-- Index of the first word-bounded 7-digit token of `cs`, if any
(`re.search(r"\b(\d{7})\b", text)`, src/llm_chat.py:78). -/
def findFloatIdx (cs : List Char) : Option Nat := scanFloat cs 0 cs.length

/-- `region_keywords` (src/llm_chat.py:82). -/
def region_keywords : List String :=
  ["arctic", "pacific", "atlantic", "indian", "southern", "mediterranean", "arabian"]

/-- `param_keywords` (src/llm_chat.py:88). -/
def param_keywords : List String :=
  ["temperature", "salinity", "pressure", "depth", "oxygen", "chlorophyll", "ph"]

/-- Does `needle` occur at the start of `hay`? (helper for substring test). -/
def startsWithChars : List Char → List Char → Bool
  | _, [] => true
  | [], _ :: _ => false
  | h :: hs, n :: ns => h == n && startsWithChars hs ns

/-- Python `needle in hay` substring containment on char lists. -/
def containsSub : List Char → List Char → Bool
  | [], needle => startsWithChars [] needle
  | h :: t, needle => startsWithChars (h :: t) needle || containsSub t needle

/-- `extract_entities(text)` (src/llm_chat.py:74-94): first word-bounded
7-digit token as `float_id`; first region keyword (in list order) that is a
substring of the lowercased text; first parameter keyword likewise. -/
def extract_entities (text : String) : Entities :=
  let cs := text.toList
  let lower := cs.map Char.toLower
  { float_id := (findFloatIdx cs).map (fun i => String.mk ((cs.drop i).take 7))
  , region := region_keywords.find? (fun r => containsSub lower r.toList)
  , parameter := param_keywords.find? (fun p => containsSub lower p.toList) }

/-- One row of the `cycles` table (columns used by the pipeline:
`platform_number, cycle_number, latitude, longitude, date`).  Coordinates are
modelled as rationals. -/
structure CycleRow where
  platform_number : String
  cycle_number : Nat
  latitude : ℚ
  longitude : ℚ
  date : String
  deriving Repr, DecidableEq

/-- The relational store: the `platform_number` column of the `floats` table
(one entry per row) and the `cycles` table. -/
structure DB where
  floats : List String
  cycles : List CycleRow
  deriving Repr, DecidableEq

/-- `SELECT COUNT(DISTINCT platform_number) FROM floats` (src/llm_chat.py:102). -/
def countDistinctFloats (db : DB) : Nat := db.floats.dedup.length

/-- `SELECT COUNT(*) FROM floats WHERE platform_number = ?` (src/llm_chat.py:108). -/
def floatCount (db : DB) (fid : String) : Nat :=
  (db.floats.filter (fun p => p == fid)).length

/-- `SELECT cycle_number, latitude, longitude, date FROM cycles WHERE
platform_number = ? ORDER BY cycle_number DESC LIMIT 1` (src/llm_chat.py:112-117):
a row of maximal cycle number among the float's cycles, if any. -/
def lastCycle (db : DB) (fid : String) : Option CycleRow :=
  (db.cycles.filter (fun c => c.platform_number == fid)).foldl
    (fun acc c =>
      match acc with
      | none => some c
      | some b => if b.cycle_number < c.cycle_number then some c else some b)
    none

/-- The Arabian-Sea bounding box `latitude BETWEEN 5 AND 25 AND longitude
BETWEEN 45 AND 78` (SQL BETWEEN is inclusive), src/llm_chat.py:130-131. -/
def inArabianBox (c : CycleRow) : Bool :=
  decide (5 ≤ c.latitude) && decide (c.latitude ≤ 25)
    && decide (45 ≤ c.longitude) && decide (c.longitude ≤ 78)

/-- `SELECT DISTINCT f.platform_number FROM floats f JOIN cycles c ON
f.platform_number=c.platform_number WHERE <box> LIMIT 5` (src/llm_chat.py:127-133).
The join is modelled as filtering box cycles whose platform number occurs in
`floats`; `DISTINCT` as `dedup`; the unordered `LIMIT 5` as taking the first
five of that enumeration. -/
def arabianFloats (db : DB) : List String :=
  ((((db.cycles.filter inArabianBox).map (fun c => c.platform_number)).filter
      (fun p => decide (p ∈ db.floats))).dedup).take 5

/-- Python `"\n".join` / `", ".join`. -/
def joinSep (sep : String) : List String → String
  | [] => ""
  | [x] => x
  | x :: y :: t => x ++ sep ++ joinSep sep (y :: t)

/-- Two-decimal rendering of a coordinate, modelling the `:.2f` format
(rounding mode of the float formatter is abstracted as truncation; no claim
depends on it).  `Int.fdiv (x.num * 100) x.den` is the floor of `x * 100`. -/
def fmt2 (x : ℚ) : String :=
  let n : Int := Int.fdiv (x.num * 100) x.den
  let frac := (n % 100).natAbs
  toString (n / 100) ++ "." ++ (if frac < 10 then "0" else "") ++ toString frac

/-- `f"Database contains {res[0]} unique floats."` (src/llm_chat.py:103). -/
def countFact (n : Nat) : String := "Database contains " ++ toString n ++ " unique floats."

/-- `f"Float {fid} exists in the database."` (src/llm_chat.py:110). -/
def existsFact (fid : String) : String := "Float " ++ fid ++ " exists in the database."

/-- `f"Last cycle {loc[0]} at {loc[1]:.2f}°N, {loc[2]:.2f}°E on {loc[3]}."`
(src/llm_chat.py:119). -/
def lastCycleFact (c : CycleRow) : String :=
  "Last cycle " ++ toString c.cycle_number ++ " at " ++ fmt2 c.latitude ++ "°N, "
    ++ fmt2 c.longitude ++ "°E on " ++ c.date ++ "."

/-- `f"No cycle records found for float {fid}."` (src/llm_chat.py:121). -/
def noCycleFact (fid : String) : String := "No cycle records found for float " ++ fid ++ "."

/-- `f"Float {fid} not found in database."` (src/llm_chat.py:123). -/
def notFoundFact (fid : String) : String := "Float " ++ fid ++ " not found in database."

/-- `f"Sample floats in Arabian Sea: {', '.join(ids)}."` (src/llm_chat.py:136). -/
def arabianFact (ids : List String) : String :=
  "Sample floats in Arabian Sea: " ++ joinSep ", " ids ++ "."

/-- `f"DATABASE ERROR: {repr(e)}"` (src/llm_chat.py:140); the argument models
`repr(e)`. -/
def dbErrorFact (e : String) : String := "DATABASE ERROR: " ++ e

/-- Injected database-call failures, one per `con.execute` site of
`query_db_facts`.  `some msg` means that call raises an exception whose
`repr` is `msg`; `none` means it succeeds. -/
structure DBFaults where
  fCount : Option String
  fExists : Option String
  fCycle : Option String
  fRegion : Option String
  deriving Repr, DecidableEq

/-- All database calls succeed. -/
def noFaults : DBFaults := ⟨none, none, none, none⟩

/-- The region step of `query_db_facts` (src/llm_chat.py:125-136): facts it
appends after the float-id step.  A raised exception ends the `try` block, so
an error here replaces the remaining output with the error fact. -/
def regionStep (db : DB) (f : DBFaults) (ents : Entities) : List String :=
  if ents.region = some "arabian" then
    match f.fRegion with
    | some e => [dbErrorFact e]
    | none =>
      let ids := arabianFloats db
      if ids.isEmpty then [] else [arabianFact ids]
  else []

/-- The float-id step of `query_db_facts` (src/llm_chat.py:105-123) followed by
the region step: facts appended after the count fact.  An exception at any
`con.execute` jumps to the `except` handler, so the error fact is the last
one and later steps are skipped. -/
def floatStep (db : DB) (f : DBFaults) (ents : Entities) : List String :=
  match ents.float_id with
  | none => regionStep db f ents
  | some fid =>
    match f.fExists with
    | some e => [dbErrorFact e]
    | none =>
      if 0 < floatCount db fid then
        existsFact fid ::
          match f.fCycle with
          | some e => [dbErrorFact e]
          | none =>
            (match lastCycle db fid with
             | some c => lastCycleFact c
             | none => noCycleFact fid) :: regionStep db f ents
      else notFoundFact fid :: regionStep db f ents

/-- The `facts` list built by `query_db_facts(question, entities)`
(src/llm_chat.py:97-145).  The `question` argument is unused in the source
body and kept for signature fidelity. -/
def db_facts_list (db : DB) (f : DBFaults) (_question : String) (ents : Entities) : List String :=
  match f.fCount with
  | some e => [dbErrorFact e]
  | none => countFact (countDistinctFloats db) :: floatStep db f ents

/-- `query_db_facts` returns `"\n".join(facts)` (src/llm_chat.py:145). -/
def query_db_facts (db : DB) (f : DBFaults) (question : String) (ents : Entities) : String :=
  joinSep "\n" (db_facts_list db f question ents)

/-- The session-context dict (src/llm_chat.py:66-71). -/
structure SessionContext where
  current_float_id : Option String
  current_region : Option String
  current_parameter : Option String
  recent_queries : List String
  deriving Repr, DecidableEq

/-- The initial `session_context` value (src/llm_chat.py:66-71). -/
def session_context : SessionContext :=
  { current_float_id := none
  , current_region := none
  , current_parameter := none
  , recent_queries := [] }

/-- `update_context(question)` (src/llm_chat.py:148-156): re-extract entities,
overwrite each matched field (`for k, v in ents.items(): ...`), append the
question to `recent_queries`, and pop the head if the length exceeds 5. -/
def update_context (ctx : SessionContext) (question : String) : SessionContext :=
  let ents := extract_entities question
  let rq := ctx.recent_queries ++ [question]
  { current_float_id := ents.float_id.or ctx.current_float_id
  , current_region := ents.region.or ctx.current_region
  , current_parameter := ents.parameter.or ctx.current_parameter
  , recent_queries := if 5 < rq.length then rq.drop 1 else rq }

/-- The `system_template` text (src/llm_chat.py:160-174). -/
def system_template : String :=
  "\nYou are an expert oceanographer and data analyst specialized in Argo float data.\nUse BOTH:\n1. DuckDB database facts (ground truth numbers, locations, stats)\n2. Retrieved documents (semantic context)\n\nGuidelines:\n- Always prioritize database facts over text from retrieval.\n- Answer in natural, plain language (no raw SQL or raw tables unless explicitly asked).\n- If information is missing in DB, clearly say \"I don’t know.\"\n- Maintain continuity using the ACTIVE CONTEXT (float ID, region, parameter).\n- For vague pronouns (\"it\", \"this float\"), resolve them from ACTIVE CONTEXT.\n- For plots, generate clean matplotlib code with labels and titles.\n- Never hallucinate values not present in the database.\n"

/-- Rendering of `prompt_template.format(context=..., question=...)`
(src/llm_chat.py:176-178): the `ChatPromptTemplate` with the system message
and the user message `context`, two newlines, `Question: `, question,
rendered as one prompt string with the standard role prefixes.  The claims
depend only on the fixed order system / context / question, which this
preserves. -/
def promptFormat (context question : String) : String :=
  "System: " ++ system_template ++ "\nHuman: " ++ context ++ "\n\nQuestion: " ++ question

/-- The prompt string assembled inside `ask_llm` (src/llm_chat.py:182-185):
database facts block, then retrieved-docs block, then the question. -/
def ask_llm_prompt (question db_facts : String) (docs : List String) : String :=
  let doc_context := if docs.isEmpty then "No retrieved docs." else joinSep "\n" docs
  promptFormat
    ("=== DATABASE FACTS ===\n" ++ db_facts ++ "\n\n=== RETRIEVED DOCS ===\n" ++ doc_context)
    question

/-- `ask_llm(question, db_facts, docs)` (src/llm_chat.py:182-189).  `gen`
models `model.generate_content` returning `response.text`; an `Except.error`
is a raised exception, which propagates (there is no handler).  On success
the result is `response.text.strip()`. -/
def ask_llm (gen : String → Except String String) (question db_facts : String)
    (docs : List String) : Except String String :=
  match gen (ask_llm_prompt question db_facts docs) with
  | Except.error e => Except.error e
  | Except.ok r => Except.ok r.trim

/-- A conversational-memory entry: `add_texts([answer], metadatas=[...])`
stores the answer text with the question as metadata (src/llm_chat.py:214). -/
structure MemoryEntry where
  text : String
  question : String
  deriving Repr, DecidableEq

/-- The mutable state `hybrid_answer` touches: the global session context and
the conversational memory store. -/
structure World where
  session : SessionContext
  memory : List MemoryEntry
  deriving Repr, DecidableEq

/-- Injected failures for the three guarded external calls of
`hybrid_answer`: semantic retrieval, memory similarity search, memory append
(src/llm_chat.py:199-206 and 213-216). -/
structure RetrFaults where
  retrieverF : Option String
  memSearchF : Option String
  memAddF : Option String
  deriving Repr, DecidableEq

/-- The `docs` list built in `hybrid_answer` (src/llm_chat.py:198-206):
`docs = []`, then `docs += retriever.get_relevant_documents(question)` under
`try/except pass`, then `docs += memory_store.similarity_search(question, k=2)`
under `try/except pass`.  A failed call contributes nothing. -/
def hybridDocs (rf mf : Option String) (retrHits memHits : List String) : List String :=
  (match rf with
   | some _ => []
   | none => retrHits)
    ++ (match mf with
        | some _ => []
        | none => memHits)

/-- `hybrid_answer(question)` (src/llm_chat.py:193-218).  `retrHits` and
`memHits` are the hit texts the two stores would return for this question
(their internals are external); `gen` is the model call.  Returns the result
(`Except.error` when the unguarded `ask_llm` raises) together with the state
of the globals after the call: on a generation error the mutation lines are
never reached, so the input world is returned unchanged. -/
def hybrid_answer (db : DB) (dbf : DBFaults) (flt : RetrFaults)
    (retrHits memHits : List String) (gen : String → Except String String)
    (w : World) (question : String) : Except String String × World :=
  let ents := extract_entities question
  let db_facts := query_db_facts db dbf question ents
  let docs := hybridDocs flt.retrieverF flt.memSearchF retrHits memHits
  match ask_llm gen question db_facts docs with
  | Except.error e => (Except.error e, w)
  | Except.ok answer =>
    let w1 : World := { w with session := update_context w.session question }
    let w2 : World :=
      match flt.memAddF with
      | some _ => w1
      | none => { w1 with memory := w1.memory ++ [⟨answer, question⟩] }
    (Except.ok answer, w2)

/-- Concrete database used for the counterexamples and witnesses: two
distinct floats (one listed twice) and one cycle, which lies in the Arabian
Sea bounding box. -/
def exDB : DB :=
  { floats := ["1111111", "2222222", "1111111"]
  , cycles := [⟨"2222222", 3, 10, 60, "2020-01-01"⟩] }

/-- Concrete question used for the counterexamples: carries a 7-digit token
and the region keyword `arabian`. -/
def exQ : String := "float 1234567 in the arabian sea"

/-- Concrete starting state for the pipeline witnesses. -/
def exWorld : World :=
  { session := ⟨some "1111111", none, none, ["old question"]⟩
  , memory := [⟨"old answer", "old question"⟩] }

/-- Maximal digit run of length exactly 7 starting at `i`: seven digits whose
neighbours (when they exist) are non-digits.  This is the spec-side notion of
a "numeric token of length 7". -/
def sevenRunAt (cs : List Char) (i : Nat) : Bool :=
  let seg := (cs.drop i).take 7
  (seg.length == 7) && seg.all (fun c => c.isDigit)
    && ((i == 0) || !((cs.getD (i - 1) ' ').isDigit))
    && (decide (cs.length ≤ i + 7) || !((cs.getD (i + 7) ' ').isDigit))

/-- No maximal digit run of `cs` has length exactly 7. -/
def noSevenRun (cs : List Char) : Bool :=
  (List.range cs.length).all (fun i => !(sevenRunAt cs i))

-- ------------------------------------------------------------------
-- Helper lemmas
-- ------------------------------------------------------------------

theorem ne_of_data_head (a b : String) (h : a.data.head? ≠ b.data.head?) : a ≠ b :=
  fun e => h (by rw [e])

theorem countFact_head (n : Nat) : (countFact n).data.head? = some 'D' := rfl

theorem existsFact_head (fid : String) : (existsFact fid).data.head? = some 'F' := rfl

theorem notFoundFact_head (fid : String) : (notFoundFact fid).data.head? = some 'F' := rfl

theorem lastCycleFact_head (c : CycleRow) : (lastCycleFact c).data.head? = some 'L' := rfl

theorem noCycleFact_head (fid : String) : (noCycleFact fid).data.head? = some 'N' := rfl

theorem arabianFact_head (ids : List String) : (arabianFact ids).data.head? = some 'S' := rfl

theorem dbErrorFact_head (e : String) : (dbErrorFact e).data.head? = some 'D' := rfl

theorem existsFact_ne_notFoundFact (fid : String) : existsFact fid ≠ notFoundFact fid := by
  intro h
  have hd := congrArg String.data h
  simp only [existsFact, notFoundFact, String.data_append, List.append_assoc] at hd
  have h2 := List.append_cancel_left (List.append_cancel_left hd)
  exact absurd h2 (by decide)

/-- Every sentence the region step can emit starts with `S` or `D`. -/
theorem regionStep_heads (db : DB) (f : DBFaults) (ents : Entities) :
    ∀ s ∈ regionStep db f ents, s.data.head? = some 'S' ∨ s.data.head? = some 'D' := by
  intro s hs
  unfold regionStep at hs
  split at hs
  · cases hfr : f.fRegion with
    | some e =>
      rw [hfr] at hs
      simp only [List.mem_singleton] at hs
      exact Or.inr (hs ▸ dbErrorFact_head e)
    | none =>
      rw [hfr] at hs
      simp only at hs
      split at hs
      · simp at hs
      · simp only [List.mem_singleton] at hs
        exact Or.inl (hs ▸ arabianFact_head _)
  · simp at hs

theorem notFoundFact_notMem_regionStep (db : DB) (f : DBFaults) (ents : Entities)
    (fid : String) : notFoundFact fid ∉ regionStep db f ents := by
  intro hmem
  rcases regionStep_heads db f ents _ hmem with h | h <;>
    rw [notFoundFact_head] at h <;> exact absurd h (by decide)

theorem existsFact_notMem_regionStep (db : DB) (f : DBFaults) (ents : Entities)
    (fid : String) : existsFact fid ∉ regionStep db f ents := by
  intro hmem
  rcases regionStep_heads db f ents _ hmem with h | h <;>
    rw [existsFact_head] at h <;> exact absurd h (by decide)

theorem joinSep_append (sep : String) :
    ∀ a b : List String, a ≠ [] → b ≠ [] →
      joinSep sep (a ++ b) = joinSep sep a ++ sep ++ joinSep sep b := by
  intro a
  induction a with
  | nil => intro b ha _; exact absurd rfl ha
  | cons x t ih =>
    intro b _ hb
    cases t with
    | nil =>
      cases b with
      | nil => exact absurd rfl hb
      | cons b0 bt => simp [joinSep]
    | cons y t2 =>
      have h2 := ih b (by simp) hb
      have h3 : joinSep sep ((x :: y :: t2) ++ b) = x ++ sep ++ joinSep sep ((y :: t2) ++ b) :=
        rfl
      have h4 : joinSep sep (x :: y :: t2) = x ++ sep ++ joinSep sep (y :: t2) := rfl
      rw [h3, h2, h4]
      simp [String.append_assoc]

/-- The left-to-right scan returns the first matching position at or after
its start index. -/
theorem scanFloat_spec (cs : List Char) :
    ∀ (fuel s i : Nat), scanFloat cs s fuel = some i →
      boundedSevenAt cs i = true ∧ s ≤ i ∧
        ∀ j, s ≤ j → j < i → boundedSevenAt cs j = false := by
  intro fuel
  induction fuel with
  | zero => intro s i h; simp [scanFloat] at h
  | succ n ih =>
    intro s i h
    rw [scanFloat] at h
    cases hb : boundedSevenAt cs s with
    | true =>
      rw [hb] at h
      simp only [if_true] at h
      obtain rfl : s = i := by injection h
      exact ⟨hb, Nat.le_refl s, fun j h1 h2 => absurd (Nat.lt_of_le_of_lt h1 h2) (Nat.lt_irrefl s)⟩
    | false =>
      rw [hb] at h
      simp only [Bool.false_eq_true, if_false] at h
      obtain ⟨hb2, hle, hall⟩ := ih (s + 1) i h
      refine ⟨hb2, by omega, fun j h1 h2 => ?_⟩
      rcases Nat.eq_or_lt_of_le h1 with h1 | h1
      · exact h1 ▸ hb
      · exact hall j (by omega) h2

/-- A match needs its seven digits inside the string. -/
theorem boundedSevenAt_length (cs : List Char) (i : Nat)
    (h : boundedSevenAt cs i = true) : i + 7 ≤ cs.length := by
  unfold boundedSevenAt at h
  simp only [Bool.and_eq_true, beq_iff_eq, List.length_take, List.length_drop] at h
  have h1 := h.1.1.1
  have h2 : (7 : Nat) ≤ cs.length - i := min_eq_left_iff.mp h1
  omega

theorem isWordChar_of_isDigit (c : Char) (h : c.isDigit = true) : isWordChar c = true := by
  simp [isWordChar, Char.isAlphanum, h]

/-- A word-bounded seven-digit match is a maximal digit run of length 7. -/
theorem sevenRunAt_of_bounded (cs : List Char) (i : Nat)
    (h : boundedSevenAt cs i = true) : sevenRunAt cs i = true := by
  unfold boundedSevenAt at h
  unfold sevenRunAt
  simp only [Bool.and_eq_true, Bool.or_eq_true, Bool.not_eq_true'] at h ⊢
  obtain ⟨⟨⟨h1, h2⟩, h3⟩, h4⟩ := h
  refine ⟨⟨⟨h1, h2⟩, ?_⟩, ?_⟩
  · rcases h3 with h3 | h3
    · exact Or.inl h3
    · right
      cases hd : (cs.getD (i - 1) ' ').isDigit
      · rfl
      · rw [isWordChar_of_isDigit _ hd] at h3; exact absurd h3 (by decide)
  · rcases h4 with h4 | h4
    · exact Or.inl h4
    · right
      cases hd : (cs.getD (i + 7) ' ').isDigit
      · rfl
      · rw [isWordChar_of_isDigit _ hd] at h4; exact absurd h4 (by decide)

/-- Fault-free fact list: count fact first, then the float and region steps. -/
theorem db_facts_list_noFaults (db : DB) (q : String) (ents : Entities) :
    db_facts_list db noFaults q ents
      = countFact (countDistinctFloats db) :: floatStep db noFaults ents := rfl

/-- Float step when no float id was extracted. -/
theorem floatStep_none (db : DB) (f : DBFaults) (ents : Entities)
    (h : ents.float_id = none) : floatStep db f ents = regionStep db f ents := by
  obtain ⟨efid, ereg, epar⟩ := ents
  have h2 : efid = none := h
  subst h2
  rfl

/-- Fact list when the count query succeeds: count fact first, then the
float and region steps. -/
theorem db_facts_list_count_ok (db : DB) (fe fy fr : Option String) (q : String)
    (ents : Entities) :
    db_facts_list db ⟨none, fe, fy, fr⟩ q ents
      = countFact (countDistinctFloats db) :: floatStep db ⟨none, fe, fy, fr⟩ ents := rfl

/-- Float step when a float id was extracted and the existence and
last-cycle queries do not fault. -/
theorem floatStep_some (db : DB) (f : DBFaults) (ents : Entities) (fid : String)
    (hf : f.fExists = none) (hy : f.fCycle = none) (h : ents.float_id = some fid) :
    floatStep db f ents
      = if 0 < floatCount db fid then
          existsFact fid ::
            ((match lastCycle db fid with
              | some c => lastCycleFact c
              | none => noCycleFact fid) :: regionStep db f ents)
        else notFoundFact fid :: regionStep db f ents := by
  obtain ⟨fc, fe, fy, fr⟩ := f
  obtain ⟨efid, ereg, epar⟩ := ents
  have h2 : efid = some fid := h
  have h3 : fe = none := hf
  have h4 : fy = none := hy
  subst h2; subst h3; subst h4
  rfl

-- ------------------------------------------------------------------
-- Claim C1
-- ------------------------------------------------------------------

/-- Claim C1 as stated is false: with both retrievals succeeding, the docs
sequence passed into prompt composition is semantic-index hits first, then
memory hits (`docs += retriever...` before `docs += memory_store...`,
src/llm_chat.py:198-206), so the memory hit is not ahead of the index hit. -/
theorem docs_memory_first_counterexample :
    hybridDocs none none ["INDEX DOC"] ["MEMORY DOC"] = ["INDEX DOC", "MEMORY DOC"]
    ∧ hybridDocs none none ["INDEX DOC"] ["MEMORY DOC"] ≠ ["MEMORY DOC", "INDEX DOC"] := by
  decide

/-- C1 (amended): for every question, the document sequence passed into
prompt composition places all Semantic Index hits ahead of all Conversational
Memory hits (each group in its retrieval order), and the assembled prompt
lists the database facts, then the index hits, then the memory hits, then
the user question. -/
theorem docs_index_before_memory (q dbf : String) (r m : List String)
    (hr : r ≠ []) (hm : m ≠ []) :
    hybridDocs none none r m = r ++ m
    ∧ ask_llm_prompt q dbf (hybridDocs none none r m)
      = "System: " ++ system_template ++ "\nHuman: "
        ++ ("=== DATABASE FACTS ===\n" ++ dbf ++ "\n\n=== RETRIEVED DOCS ===\n"
            ++ (joinSep "\n" r ++ "\n" ++ joinSep "\n" m))
        ++ "\n\nQuestion: " ++ q := by
  have hd : hybridDocs none none r m = r ++ m := rfl
  refine ⟨hd, ?_⟩
  rw [hd]
  unfold ask_llm_prompt promptFormat
  have hne : (r ++ m).isEmpty = false := by
    cases r with
    | nil => exact absurd rfl hr
    | cons a t => rfl
  simp only [hne, Bool.false_eq_true, if_false]
  rw [joinSep_append "\n" r m hr hm]

/-- Witness for `docs_index_before_memory` at concrete hits. -/
theorem docs_index_before_memory_witness :
    hybridDocs none none ["IDX"] ["MEM"] = ["IDX"] ++ ["MEM"] :=
  (docs_index_before_memory "q" "facts" ["IDX"] ["MEM"] (by decide) (by decide)).1

-- ------------------------------------------------------------------
-- Claim C4
-- ------------------------------------------------------------------

/-- C4: if the model-generation call fails, the error propagates to the
caller of `hybrid_answer` and the session context and memory store are
exactly as they were before the call (the update lines are never reached,
src/llm_chat.py:208-216). -/
theorem generation_error_propagates_unchanged (db : DB) (dbf : DBFaults)
    (flt : RetrFaults) (r m : List String) (gen : String → Except String String)
    (w : World) (q e : String) (hgen : ∀ p, gen p = Except.error e) :
    hybrid_answer db dbf flt r m gen w q = (Except.error e, w) := by
  simp [hybrid_answer, ask_llm, hgen]

/-- Witness for `generation_error_propagates_unchanged`. -/
theorem generation_error_propagates_unchanged_witness :
    hybrid_answer exDB noFaults ⟨none, none, none⟩ ["doc1"] ["doc2"]
      (fun _ => Except.error "model timeout") exWorld "hello"
      = (Except.error "model timeout", exWorld) :=
  generation_error_propagates_unchanged exDB noFaults ⟨none, none, none⟩ ["doc1"] ["doc2"]
    (fun _ => Except.error "model timeout") exWorld "hello" "model timeout" (fun _ => rfl)

-- ------------------------------------------------------------------
-- Claim C9
-- ------------------------------------------------------------------

/-- C9: a failure of the Semantic Index retrieval, the memory retrieval, or
the memory append is caught (src/llm_chat.py:199-206, 213-216): the answer is
still produced, a failed retrieval contributes no documents (the others'
hits remain), and a failed append leaves the memory store unchanged. -/
theorem retrieval_failures_soft_fail (db : DB) (dbf : DBFaults)
    (rf mf af : Option String) (r m : List String)
    (gen : String → Except String String) (w : World) (q resp : String)
    (hgen : ∀ p, gen p = Except.ok resp) :
    (hybrid_answer db dbf ⟨rf, mf, af⟩ r m gen w q).1 = Except.ok resp.trim
    ∧ hybridDocs rf mf r m
        = (if rf.isSome then [] else r) ++ (if mf.isSome then [] else m)
    ∧ (af.isSome →
        (hybrid_answer db dbf ⟨rf, mf, af⟩ r m gen w q).2.memory = w.memory) := by
  refine ⟨?_, ?_, ?_⟩
  · cases af <;> simp [hybrid_answer, ask_llm, hgen]
  · cases rf <;> cases mf <;> simp [hybridDocs]
  · intro haf
    cases af with
    | none => simp at haf
    | some e2 => simp [hybrid_answer, ask_llm, hgen]

/-- Witness for `retrieval_failures_soft_fail` with all three calls failing. -/
theorem retrieval_failures_soft_fail_witness :
    (hybrid_answer exDB noFaults ⟨some "down", some "down2", some "down3"⟩ ["X"] ["Y"]
        (fun _ => Except.ok "ANSWER") exWorld "hi").1 = Except.ok ("ANSWER").trim
    ∧ hybridDocs (some "down") (some "down2") ["X"] ["Y"]
        = (if (some "down" : Option String).isSome then [] else ["X"])
          ++ (if (some "down2" : Option String).isSome then [] else ["Y"])
    ∧ ((some "down3" : Option String).isSome →
        (hybrid_answer exDB noFaults ⟨some "down", some "down2", some "down3"⟩ ["X"] ["Y"]
          (fun _ => Except.ok "ANSWER") exWorld "hi").2.memory = exWorld.memory) :=
  retrieval_failures_soft_fail exDB noFaults (some "down") (some "down2") (some "down3")
    ["X"] ["Y"] (fun _ => Except.ok "ANSWER") exWorld "hi" "ANSWER" (fun _ => rfl)

-- ------------------------------------------------------------------
-- Claim C6
-- ------------------------------------------------------------------

theorem update_context_le (ctx : SessionContext) (q : String)
    (h : ctx.recent_queries.length ≤ 5) :
    (update_context ctx q).recent_queries.length ≤ 5 := by
  simp only [update_context]
  split
  · simp only [List.length_drop, List.length_append, List.length_singleton]
    omega
  · next hlt =>
    simp only [List.length_append, List.length_singleton] at hlt ⊢
    omega

/-- C6: starting from the initial session context, `recent_queries` never
exceeds length 5 after any number of updates, and each update appends the
question at the tail, removing exactly the head element when the bound
would be exceeded (FIFO). -/
theorem recent_queries_bounded_fifo :
    (∀ qs : List String,
      (qs.foldl update_context session_context).recent_queries.length ≤ 5)
    ∧ (∀ (ctx : SessionContext) (q : String), ctx.recent_queries.length ≤ 5 →
        (update_context ctx q).recent_queries
          = (if ctx.recent_queries.length = 5 then ctx.recent_queries.drop 1
             else ctx.recent_queries) ++ [q]) := by
  constructor
  · have aux : ∀ (qs : List String) (ctx : SessionContext),
        ctx.recent_queries.length ≤ 5 →
        (qs.foldl update_context ctx).recent_queries.length ≤ 5 := by
      intro qs
      induction qs with
      | nil => intro ctx h; simpa using h
      | cons q t ih => intro ctx h; exact ih _ (update_context_le ctx q h)
    intro qs
    exact aux qs session_context (by decide)
  · intro ctx q h
    simp only [update_context]
    by_cases h5 : ctx.recent_queries.length = 5
    · rw [if_pos h5]
      have hgt : 5 < (ctx.recent_queries ++ [q]).length := by
        simp only [List.length_append, List.length_singleton]
        omega
      rw [if_pos hgt]
      exact List.drop_append_of_le_length (by omega)
    · rw [if_neg h5]
      have hle : ¬ 5 < (ctx.recent_queries ++ [q]).length := by
        simp only [List.length_append, List.length_singleton]
        omega
      rw [if_neg hle]

/-- Witness for `recent_queries_bounded_fifo`: a full queue evicts its head. -/
theorem recent_queries_bounded_fifo_witness :
    (update_context ⟨none, none, none, ["q1", "q2", "q3", "q4", "q5"]⟩ "q6").recent_queries
      = ["q2", "q3", "q4", "q5", "q6"] := by
  have h := recent_queries_bounded_fifo.2 ⟨none, none, none, ["q1", "q2", "q3", "q4", "q5"]⟩
    "q6" (by decide)
  simpa using h

-- ------------------------------------------------------------------
-- Claim C7
-- ------------------------------------------------------------------

/-- C7: on update, a field whose entity kind the extractor did not match
keeps its previous value (never cleared on a non-match), and a matched field
is overwritten with the extracted value. -/
theorem context_fields_sticky (ctx : SessionContext) (q : String) :
    ((extract_entities q).float_id = none →
      (update_context ctx q).current_float_id = ctx.current_float_id)
    ∧ ((extract_entities q).region = none →
      (update_context ctx q).current_region = ctx.current_region)
    ∧ ((extract_entities q).parameter = none →
      (update_context ctx q).current_parameter = ctx.current_parameter)
    ∧ (∀ v, (extract_entities q).float_id = some v →
      (update_context ctx q).current_float_id = some v)
    ∧ (∀ v, (extract_entities q).region = some v →
      (update_context ctx q).current_region = some v)
    ∧ (∀ v, (extract_entities q).parameter = some v →
      (update_context ctx q).current_parameter = some v) := by
  refine ⟨fun h => ?_, fun h => ?_, fun h => ?_,
    fun v h => ?_, fun v h => ?_, fun v h => ?_⟩ <;>
    simp [update_context, h]

/-- Witness for `context_fields_sticky`: a question matching nothing leaves
all three fields unchanged. -/
theorem context_fields_sticky_witness :
    (update_context ⟨some "1111111", some "indian", some "ph", []⟩ "hello").current_float_id
      = some "1111111"
    ∧ (update_context ⟨some "1111111", some "indian", some "ph", []⟩ "hello").current_region
      = some "indian"
    ∧ (update_context ⟨some "1111111", some "indian", some "ph", []⟩ "hello").current_parameter
      = some "ph" := by
  have h := context_fields_sticky ⟨some "1111111", some "indian", some "ph", []⟩ "hello"
  exact ⟨h.1 (by decide), h.2.1 (by decide), h.2.2.1 (by decide)⟩

-- ------------------------------------------------------------------
-- Claim C2
-- ------------------------------------------------------------------

/-- Claim C2 as stated is false on its continuation part: with the float-id
existence query failing on a question that also names the Arabian region,
the fact list ends at the error sentence — the region step never executes
even though it would have produced a sentence (the single `try` block of
`query_db_facts` exits at the first raised exception). -/
theorem db_error_skips_later_steps :
    db_facts_list exDB ⟨none, some "db locked", none, none⟩ exQ (extract_entities exQ)
      = [countFact 2, dbErrorFact "db locked"]
    ∧ arabianFloats exDB ≠ []
    ∧ arabianFact (arabianFloats exDB)
        ∉ db_facts_list exDB ⟨none, some "db locked", none, none⟩ exQ
            (extract_entities exQ) := by
  decide

/-- C2 (amended): a database error at any step of fact resolution is caught
and converted into a fact sentence naming the error (never silently
swallowed) and the question-answering flow is not aborted; however, steps
after the failing one are skipped: the fact list ends at the error
sentence.  The first four conjuncts cover the four `con.execute` sites of
`query_db_facts` — count, float existence, last cycle, region — each under
the condition that makes that site execute, and the last conjunct shows the
turn still returns the model answer under every database fault schedule. -/
theorem db_error_caught_flow_continues (db : DB) (q e resp : String)
    (flt : RetrFaults) (r m : List String) (gen : String → Except String String)
    (w : World) (hgen : ∀ p, gen p = Except.ok resp) :
    (∀ ents, db_facts_list db ⟨some e, none, none, none⟩ q ents = [dbErrorFact e])
    ∧ (∀ ents fid, ents.float_id = some fid →
        db_facts_list db ⟨none, some e, none, none⟩ q ents
          = [countFact (countDistinctFloats db), dbErrorFact e])
    ∧ (∀ ents fid, ents.float_id = some fid → 0 < floatCount db fid →
        db_facts_list db ⟨none, none, some e, none⟩ q ents
          = [countFact (countDistinctFloats db), existsFact fid, dbErrorFact e])
    ∧ (∀ ents, ents.region = some "arabian" →
        ∃ pre, db_facts_list db ⟨none, none, none, some e⟩ q ents
          = pre ++ [dbErrorFact e])
    ∧ (∀ f : DBFaults,
        (hybrid_answer db f flt r m gen w q).1 = Except.ok resp.trim) := by
  refine ⟨fun ents => rfl, ?_, ?_, ?_, ?_⟩
  · intro ents fid hfid
    obtain ⟨efid, ereg, epar⟩ := ents
    have h2 : efid = some fid := hfid
    subst h2
    rfl
  · intro ents fid hfid hpos
    obtain ⟨efid, ereg, epar⟩ := ents
    have h2 : efid = some fid := hfid
    subst h2
    simp [db_facts_list, floatStep, hpos]
  · intro ents hreg
    have hrs : regionStep db ⟨none, none, none, some e⟩ ents = [dbErrorFact e] := by
      unfold regionStep
      rw [if_pos hreg]
    rw [db_facts_list_count_ok]
    cases hfid : ents.float_id with
    | none =>
      rw [floatStep_none db _ ents hfid, hrs]
      exact ⟨[countFact (countDistinctFloats db)], rfl⟩
    | some fid =>
      rw [floatStep_some db _ ents fid rfl rfl hfid, hrs]
      by_cases hpos : 0 < floatCount db fid
      · rw [if_pos hpos]
        exact ⟨countFact (countDistinctFloats db) :: existsFact fid ::
          [(match lastCycle db fid with
            | some c => lastCycleFact c
            | none => noCycleFact fid)], rfl⟩
      · rw [if_neg hpos]
        exact ⟨[countFact (countDistinctFloats db), notFoundFact fid], rfl⟩
  · intro f2
    obtain ⟨rf, mf, af⟩ := flt
    cases af <;> simp [hybrid_answer, ask_llm, hgen]

/-- Witness for `db_error_caught_flow_continues`: on the concrete store and
question, the existence-site fault ends the fact list at the error
sentence, the region-site fault also ends the list at the error sentence,
and the turn with the faulty store still returns the model answer. -/
theorem db_error_caught_flow_continues_witness :
    db_facts_list exDB ⟨none, some "db locked", none, none⟩ exQ (extract_entities exQ)
      = [countFact (countDistinctFloats exDB), dbErrorFact "db locked"]
    ∧ (∃ pre, db_facts_list exDB ⟨none, none, none, some "db locked"⟩ exQ
        (extract_entities exQ) = pre ++ [dbErrorFact "db locked"])
    ∧ (hybrid_answer exDB ⟨none, some "db locked", none, none⟩ ⟨none, none, none⟩ [] []
        (fun _ => Except.ok "OK") exWorld exQ).1 = Except.ok ("OK").trim := by
  have h := db_error_caught_flow_continues exDB exQ "db locked" "OK"
    ⟨none, none, none⟩ [] [] (fun _ => Except.ok "OK") exWorld (fun _ => rfl)
  exact ⟨h.2.1 (extract_entities exQ) "1234567" (by decide),
         h.2.2.2.1 (extract_entities exQ) (by decide),
         h.2.2.2.2 ⟨none, some "db locked", none, none⟩⟩

-- ------------------------------------------------------------------
-- Claim C3
-- ------------------------------------------------------------------

/-- Claim C3 as stated is false: when the count query itself raises, the
fact list is just the error sentence and contains no count fact at all. -/
theorem count_fact_absent_on_db_error :
    db_facts_list exDB ⟨some "no such table: floats", none, none, none⟩ exQ
        (extract_entities exQ)
      = [dbErrorFact "no such table: floats"]
    ∧ countFact (countDistinctFloats exDB)
        ∉ db_facts_list exDB ⟨some "no such table: floats", none, none, none⟩ exQ
            (extract_entities exQ) := by
  decide

/-- C3 (amended): whenever the count query succeeds, the fact list starts
with the total distinct-float count fact, and the number it states is the
true count of distinct platform numbers in the floats table. -/
theorem count_fact_present_when_count_succeeds (db : DB) (f : DBFaults) (q : String)
    (ents : Entities) (h : f.fCount = none) :
    (db_facts_list db f q ents).head? = some (countFact (countDistinctFloats db))
    ∧ countDistinctFloats db = db.floats.toFinset.card := by
  constructor
  · obtain ⟨fc, fe, fy, fr⟩ := f
    have h2 : fc = none := h
    subst h2
    rfl
  · exact (List.card_toFinset db.floats).symm

/-- Witness for `count_fact_present_when_count_succeeds`. -/
theorem count_fact_present_when_count_succeeds_witness :
    (db_facts_list exDB noFaults exQ (extract_entities exQ)).head?
      = some (countFact (countDistinctFloats exDB))
    ∧ countDistinctFloats exDB = exDB.floats.toFinset.card :=
  count_fact_present_when_count_succeeds exDB noFaults exQ (extract_entities exQ) rfl

-- ------------------------------------------------------------------
-- Claim C5
-- ------------------------------------------------------------------

/-- C5: for every question with an extracted 7-digit token and a reachable
store, the fact list contains the "exists" sentence exactly when a float
with that platform number is in the floats table, and the "not found"
sentence exactly otherwise — never both, never neither. -/
theorem float_id_fact_exclusive (db : DB) (q fid : String)
    (h : (extract_entities q).float_id = some fid) :
    (0 < floatCount db fid →
      existsFact fid ∈ db_facts_list db noFaults q (extract_entities q)
      ∧ notFoundFact fid ∉ db_facts_list db noFaults q (extract_entities q))
    ∧ (floatCount db fid = 0 →
      notFoundFact fid ∈ db_facts_list db noFaults q (extract_entities q)
      ∧ existsFact fid ∉ db_facts_list db noFaults q (extract_entities q)) := by
  have hlist := db_facts_list_noFaults db q (extract_entities q)
  have hfs := floatStep_some db noFaults (extract_entities q) fid rfl rfl h
  constructor
  · intro hpos
    rw [hlist, hfs, if_pos hpos]
    constructor
    · simp
    · intro hmem
      simp only [List.mem_cons] at hmem
      rcases hmem with h1 | h1 | h1 | h1
      · exact ne_of_data_head _ _ (by rw [notFoundFact_head, countFact_head]; decide) h1
      · exact existsFact_ne_notFoundFact fid h1.symm
      · cases hlc : lastCycle db fid with
        | some c =>
          rw [hlc] at h1
          exact ne_of_data_head _ _ (by rw [notFoundFact_head, lastCycleFact_head]; decide) h1
        | none =>
          rw [hlc] at h1
          exact ne_of_data_head _ _ (by rw [notFoundFact_head, noCycleFact_head]; decide) h1
      · exact notFoundFact_notMem_regionStep db noFaults _ fid h1
  · intro hzero
    have hneg : ¬ 0 < floatCount db fid := by omega
    rw [hlist, hfs, if_neg hneg]
    constructor
    · simp
    · intro hmem
      simp only [List.mem_cons] at hmem
      rcases hmem with h1 | h1 | h1
      · exact ne_of_data_head _ _ (by rw [existsFact_head, countFact_head]; decide) h1
      · exact existsFact_ne_notFoundFact fid h1
      · exact existsFact_notMem_regionStep db noFaults _ fid h1

/-- Witness for `float_id_fact_exclusive` on the existing float of `exDB`. -/
theorem float_id_fact_exclusive_witness :
    0 < floatCount exDB "2222222"
    ∧ existsFact "2222222" ∈ db_facts_list exDB noFaults "show float 2222222"
        (extract_entities "show float 2222222")
    ∧ notFoundFact "2222222" ∉ db_facts_list exDB noFaults "show float 2222222"
        (extract_entities "show float 2222222") := by
  have h := (float_id_fact_exclusive exDB "show float 2222222" "2222222" (by decide)).1
    (by decide)
  exact ⟨by decide, h.1, h.2⟩

-- ------------------------------------------------------------------
-- Claim C8
-- ------------------------------------------------------------------

/-- C8: for every question whose extracted region is "arabian" (fault-free
store), the region step emits at most 5 distinct float ids, each the
platform number of a float having a cycle with latitude in [5,25] and
longitude in [45,78] (inclusive); when the id list is nonempty, the sample
sentence built from exactly those ids is in the fact list. -/
theorem arabian_region_facts_bounded (db : DB) (q : String)
    (h : (extract_entities q).region = some "arabian") :
    (arabianFloats db).Nodup
    ∧ (arabianFloats db).length ≤ 5
    ∧ (∀ x ∈ arabianFloats db, x ∈ db.floats
        ∧ ∃ c ∈ db.cycles, c.platform_number = x
            ∧ 5 ≤ c.latitude ∧ c.latitude ≤ 25 ∧ 45 ≤ c.longitude ∧ c.longitude ≤ 78)
    ∧ (arabianFloats db ≠ [] →
        arabianFact (arabianFloats db)
          ∈ db_facts_list db noFaults q (extract_entities q)) := by
  refine ⟨?_, ?_, ?_, ?_⟩
  · exact List.Nodup.sublist (List.take_sublist 5 _) (List.nodup_dedup _)
  · exact List.length_take_le 5 _
  · intro x hx
    have hx2 : x ∈ (((db.cycles.filter inArabianBox).map
        (fun c => c.platform_number)).filter (fun p => decide (p ∈ db.floats))).dedup :=
      List.take_subset 5 _ hx
    rw [List.mem_dedup] at hx2
    rw [List.mem_filter] at hx2
    obtain ⟨hmap, hflo⟩ := hx2
    have hflo2 : x ∈ db.floats := of_decide_eq_true hflo
    obtain ⟨c, hc, hcx⟩ := List.mem_map.mp hmap
    rw [List.mem_filter] at hc
    obtain ⟨hcyc, hbox⟩ := hc
    simp only [inArabianBox, Bool.and_eq_true, decide_eq_true_eq] at hbox
    exact ⟨hflo2, c, hcyc, hcx, hbox.1.1.1, hbox.1.1.2, hbox.1.2, hbox.2⟩
  · intro hne
    have hreg : arabianFact (arabianFloats db)
        ∈ regionStep db noFaults (extract_entities q) := by
      unfold regionStep
      rw [if_pos h]
      cases harb : arabianFloats db with
      | nil => exact absurd harb hne
      | cons a t => simp [noFaults]
    rw [db_facts_list_noFaults]
    apply List.mem_cons_of_mem
    cases hfid2 : (extract_entities q).float_id with
    | none => rw [floatStep_none db noFaults _ hfid2]; exact hreg
    | some fid =>
      rw [floatStep_some db noFaults _ fid rfl rfl hfid2]
      by_cases hpos : 0 < floatCount db fid
      · rw [if_pos hpos]
        exact List.mem_cons_of_mem _ (List.mem_cons_of_mem _ hreg)
      · rw [if_neg hpos]
        exact List.mem_cons_of_mem _ hreg

/-- Witness for `arabian_region_facts_bounded` on the concrete store. -/
theorem arabian_region_facts_bounded_witness :
    (arabianFloats exDB).Nodup
    ∧ (arabianFloats exDB).length ≤ 5
    ∧ (∀ x ∈ arabianFloats exDB, x ∈ exDB.floats
        ∧ ∃ c ∈ exDB.cycles, c.platform_number = x
            ∧ 5 ≤ c.latitude ∧ c.latitude ≤ 25 ∧ 45 ≤ c.longitude ∧ c.longitude ≤ 78)
    ∧ (arabianFloats exDB ≠ [] →
        arabianFact (arabianFloats exDB)
          ∈ db_facts_list exDB noFaults "floats in arabian sea"
              (extract_entities "floats in arabian sea")) :=
  arabian_region_facts_bounded exDB "floats in arabian sea" (by decide)

-- ------------------------------------------------------------------
-- Claim C10
-- ------------------------------------------------------------------

/-- C10: the extractor yields a `float_id` only for a token of exactly seven
digits delimited by word boundaries — if no maximal digit run of the text
has length exactly 7, no `float_id` is returned — and when a match exists
the first (leftmost) word-bounded 7-digit occurrence is the one taken. -/
theorem float_id_seven_digit_token_first (t : String) :
    (noSevenRun t.toList = true → (extract_entities t).float_id = none)
    ∧ (∀ s, (extract_entities t).float_id = some s →
        ∃ i, boundedSevenAt t.toList i = true
          ∧ s = String.mk ((t.toList.drop i).take 7)
          ∧ ∀ j < i, boundedSevenAt t.toList j = false) := by
  constructor
  · intro hno
    cases hfi : findFloatIdx t.toList with
    | none =>
      have hfi2 : findFloatIdx t.data = none := hfi
      simp [extract_entities, hfi2]
    | some i =>
      exfalso
      obtain ⟨hb, _, _⟩ := scanFloat_spec t.toList t.toList.length 0 i hfi
      have hlen := boundedSevenAt_length t.toList i hb
      have hrun := sevenRunAt_of_bounded t.toList i hb
      have hmem : i ∈ List.range t.toList.length := List.mem_range.mpr (by omega)
      have hall := List.all_eq_true.mp hno i hmem
      rw [hrun] at hall
      exact absurd hall (by decide)
  · intro s hs
    cases hfi : findFloatIdx t.toList with
    | none =>
      have hfi2 : findFloatIdx t.data = none := hfi
      simp [extract_entities, hfi2] at hs
    | some i =>
      obtain ⟨hb, _, hall⟩ := scanFloat_spec t.toList t.toList.length 0 i hfi
      have hfi2 : findFloatIdx t.data = some i := hfi
      have hs2 : s = String.mk ((t.toList.drop i).take 7) := by
        simp [extract_entities, hfi2] at hs
        exact hs.symm
      exact ⟨i, hb, hs2, fun j hj => hall j (Nat.zero_le j) hj⟩

/-- Witness for `float_id_seven_digit_token_first`: an 8-digit token yields
no float id. -/
theorem float_id_seven_digit_token_first_witness :
    (extract_entities "order 12345678 has no seven digit id").float_id = none :=
  (float_id_seven_digit_token_first "order 12345678 has no seven digit id").1 (by decide)

